import Mathlib

/-!
Verification development for the marketing-site repository: the Untitled UI
component catalog scraper (`scripts/scrape-untitled-ui.js`), the catalog CLI
helper, and the sitemap serialize function of the site build configuration.
The JavaScript is shallowly embedded: object maps become association lists in
insertion order, the run timestamp (`new Date().toISOString()`) becomes an
explicit string parameter, and console/process effects become structured
outcome values.
-/

set_option autoImplicit false
set_option maxRecDepth 8000

/-- JS `needle` is a prefix of `haystack`, over character lists. -/
def listStartsWith : List Char → List Char → Bool
  | [], _ => true
  | _ :: _, [] => false
  | a :: as, b :: bs => a == b && listStartsWith as bs

/-- JS `haystack.includes(needle)` over character lists. -/
def listHasSub (needle : List Char) : List Char → Bool
  | [] => listStartsWith needle []
  | l@(_ :: rest) => listStartsWith needle l || listHasSub needle rest

/-- JS `s.includes(sub)`: substring containment. -/
def strIncludes (s sub : String) : Bool :=
  listHasSub sub.toList s.toList

/-- JS `s.toLowerCase()` (all data here is ASCII), as a character-wise map. -/
def jsToLower (s : String) : String :=
  String.mk (s.toList.map Char.toLower)

/-- JS truthiness of a possibly-absent string (`undefined` and `""` are falsy). -/
def jsTruthy : Option String → Bool
  | none => false
  | some s => !(s == "")

/-- JS `s.charAt(0).toUpperCase() + s.slice(1)`. -/
def capitalizeFirst (s : String) : String :=
  match s.toList with
  | [] => ""
  | c :: rest => String.mk (c.toUpper :: rest)

/-- The static taxonomy `COMPONENT_CATEGORIES`, in declaration order. -/
def COMPONENT_CATEGORIES : List (String × List String) :=
  [("buttons", ["button", "button-group", "split-button"]),
   ("inputs", ["input", "textarea", "select", "checkbox", "radio", "switch", "file-upload"]),
   ("avatars", ["avatar", "avatar-group"]),
   ("navigation", ["breadcrumb", "pagination", "tabs", "navbar", "sidebar"]),
   ("feedback", ["alert", "toast", "progress", "spinner", "badge"]),
   ("overlays", ["modal", "popover", "tooltip", "dropdown", "dialog"]),
   ("layout", ["card", "container", "divider", "stack"]),
   ("data-display", ["table", "list", "stat", "timeline", "carousel"]),
   ("forms", ["form", "fieldset", "form-control", "validation"])]

/-- `this.baseUrl` of the scraper. -/
def baseUrl : String := "https://www.untitledui.com/react/components"

/-- The `installation` sub-object of a component record. -/
structure Installation where
  cli : String
  manual : Bool
deriving DecidableEq, Repr

/-- One component record as built by `fetchComponentInfo` (JS object fields in
order; `props` is an insertion-ordered string map). -/
structure ComponentData where
  name : String
  description : String
  category : String
  installation : Installation
  variants : List String
  props : List (String × String)
  examples : List String
  dependencies : List String
  documentation : String
  lastUpdated : String
deriving DecidableEq, Repr

/-- `getCategoryForComponent`: first category whose member list includes the
name, else `"misc"`. -/
def getCategoryForComponent (componentName : String) : String :=
  match COMPONENT_CATEGORIES.find? (fun p => p.2.contains componentName) with
  | some p => p.1
  | none => "misc"

/-- `fetchComponentInfo`, with `now` standing for `new Date().toISOString()`. -/
def fetchComponentInfo (now componentName : String) : ComponentData :=
  let componentData : ComponentData :=
    { name := componentName
      description := capitalizeFirst componentName ++ " component from Untitled UI"
      category := getCategoryForComponent componentName
      installation := { cli := "npx untitledui@latest add " ++ componentName, manual := true }
      variants := []
      props := []
      examples := []
      dependencies := ["react", "react-aria", "tailwindcss"]
      documentation := baseUrl ++ "/" ++ componentName
      lastUpdated := now }
  if componentName = "button" then
    { componentData with
      variants := ["primary", "secondary", "tertiary", "destructive", "link"]
      props := [("color", "string"), ("size", "sm | md | lg | xl"),
                ("iconLeading", "ReactNode"), ("iconTrailing", "ReactNode"),
                ("isLoading", "boolean"), ("isDisabled", "boolean")] }
  else if componentName = "input" then
    { componentData with
      variants := ["default", "invalid", "disabled", "with-icon", "with-dropdown"]
      props := [("size", "sm | md | lg"), ("isInvalid", "boolean"),
                ("isDisabled", "boolean"), ("iconLeading", "ReactNode"),
                ("iconTrailing", "ReactNode")] }
  else componentData

/-- JS `Set.add` semantics: keep the first occurrence, preserve insertion order. -/
def insertUnique (acc : List String) (x : String) : List String :=
  if x ∈ acc then acc else acc ++ [x]

/-- De-duplicate keeping first occurrences (JS `Set` iteration order). -/
def dedupFirst (l : List String) : List String :=
  l.foldl insertUnique []

/-- The `allComponents` set of `scrapeAllComponents`: every taxonomy member,
de-duplicated in first-seen order. -/
def allComponentNames : List String :=
  dedupFirst ((COMPONENT_CATEGORIES.map (fun p => p.2)).flatten)

/-- The in-memory `this.components` map after `scrapeAllComponents` (a `Map`
in insertion order; `fetchComponentInfo` never throws, so no entry is skipped). -/
def scrapeAllComponents (now : String) : List (String × ComponentData) :=
  allComponentNames.map (fun n => (n, fetchComponentInfo now n))

/-- JS `map.has(n)` / truthiness of `obj[n]` over the embedded store. -/
def storeHas (store : List (String × ComponentData)) (n : String) : Bool :=
  (store.find? (fun p => p.1 == n)).isSome

/-- JS `map.get(n)` / `obj[n]` over the embedded store. -/
def storeGet (store : List (String × ComponentData)) (n : String) : Option ComponentData :=
  (store.find? (fun p => p.1 == n)).map (fun p => p.2)

/-- The `metadata` block of the catalog. -/
structure CatalogMetadata where
  source : String
  url : String
  scrapedAt : String
  totalComponents : Nat
  categories : List String
deriving DecidableEq, Repr

/-- The catalog aggregate written by `generateCatalog` (`categories` entries
spread the full record, whose `name` field overwrites the re-embedded name
with the identical value, so an entry is just the record). -/
structure Catalog where
  metadata : CatalogMetadata
  categories : List (String × List ComponentData)
  components : List (String × ComponentData)
deriving DecidableEq, Repr

/-- `generateCatalog` as a pure function of the timestamp and component store. -/
def generateCatalog (now : String) (store : List (String × ComponentData)) : Catalog :=
  { metadata :=
      { source := "Untitled UI React Components"
        url := baseUrl
        scrapedAt := now
        totalComponents := store.length
        categories := COMPONENT_CATEGORIES.map (fun p => p.1) }
    categories := COMPONENT_CATEGORIES.map (fun p =>
      (p.1, (p.2.filter (fun n => storeHas store n)).filterMap (fun n => storeGet store n)))
    components := store }

/-- One full scraper run (`init` / file writes elided): the catalog value. -/
def runScraper (now : String) : Catalog :=
  generateCatalog now (scrapeAllComponents now)

example : getCategoryForComponent "button" = "buttons" := by decide
example : getCategoryForComponent "nonexistent" = "misc" := by decide
example : allComponentNames.length = 40 := by decide
example : (fetchComponentInfo "t" "card").variants = [] := by decide

/-- The literal-union member lists of `generateTypeDefinitions`:
`ComponentCategory` is built from `Object.keys(COMPONENT_CATEGORIES)`. -/
def componentCategoryUnion : List String :=
  COMPONENT_CATEGORIES.map (fun p => p.1)

/-- `ComponentName` is built from
`Array.from(new Set(Object.values(COMPONENT_CATEGORIES).flat()))`. -/
def componentNameUnion : List String :=
  dedupFirst ((COMPONENT_CATEGORIES.map (fun p => p.2)).flatten)

/-- An ASCII single-quote character, used by the emitted literal types. -/
def squote : String := String.singleton (Char.ofNat 39)

/-- JS `names.map(n => `'${n}'`).join(' | ')`. -/
def literalUnion (names : List String) : String :=
  String.intercalate " | " (names.map (fun n => squote ++ n ++ squote))

/-- The `types.ts` text emitted by `generateTypeDefinitions`. Note the catalog
argument is never consulted: both unions come from the static taxonomy. -/
def generateTypeDefinitions (_catalog : Catalog) : String :=
  "// Auto-generated Untitled UI component types\n" ++
  "export interface UntitledUIComponent \x7b\n" ++
  "  name: string;\n" ++
  "  description: string;\n" ++
  "  category: string;\n" ++
  "  installation: \x7b cli: string; manual: boolean; \x7d;\n" ++
  "  variants: string[];\n" ++
  "  props: Record<string, string>;\n" ++
  "  examples: string[];\n" ++
  "  dependencies: string[];\n" ++
  "  documentation: string;\n" ++
  "  lastUpdated: string;\n" ++
  "\x7d\n\n" ++
  "export type ComponentCategory = " ++ literalUnion componentCategoryUnion ++ ";\n" ++
  "export type ComponentName = " ++ literalUnion componentNameUnion ++ ";\n"

namespace UIHelper

/-- Outcome of the `search` subcommand after a successful catalog load. -/
inductive SearchOutcome where
  | noneFound (query : String)
  | found (results : List ComponentData)
deriving DecidableEq, Repr

/-- The filter predicate of `UIHelper.search` (applied with the lowercased
query): substring match against lowercased name, description, category, or any
lowercased variant. -/
def matchesQuery (lowerQuery : String) (component : ComponentData) : Bool :=
  strIncludes (jsToLower component.name) lowerQuery ||
  strIncludes (jsToLower component.description) lowerQuery ||
  strIncludes (jsToLower component.category) lowerQuery ||
  component.variants.any (fun variant => strIncludes (jsToLower variant) lowerQuery)

/-- The `results` list of `UIHelper.search`: `Object.values(catalog.components)`
filtered by `matchesQuery`. -/
def searchResults (catalog : Catalog) (query : String) : List ComponentData :=
  (catalog.components.map (fun p => p.2)).filter (matchesQuery (jsToLower query))

/-- `UIHelper.search` after the catalog is loaded: prints the no-components
message on zero results, else the per-match listing. -/
def search (catalog : Catalog) (query : String) : SearchOutcome :=
  let results := searchResults catalog query
  if results.length = 0 then SearchOutcome.noneFound query
  else SearchOutcome.found results

/-- Outcome of the `list` subcommand after a successful catalog load. -/
inductive ListOutcome where
  | categoryNotFound (category : String) (available : List String)
  | categoryListing (category : String) (components : List ComponentData)
  | allListing (total : Nat) (categories : List (String × List ComponentData))
deriving DecidableEq, Repr

/-- JS `catalog.categories[category]` (an assoc-list lookup). -/
def categoriesGet (catalog : Catalog) (category : String) : Option (List ComponentData) :=
  (catalog.categories.find? (fun p => p.1 == category)).map (fun p => p.2)

/-- `UIHelper.list(category = null)`: the parameter is tested with JS
truthiness, so `null`, `undefined` and `""` all take the all-categories branch. -/
def list (catalog : Catalog) (category : Option String) : ListOutcome :=
  if jsTruthy category then
    let c := category.getD ""
    match categoriesGet catalog c with
    | none => ListOutcome.categoryNotFound c (catalog.categories.map (fun p => p.1))
    | some categoryComponents => ListOutcome.categoryListing c categoryComponents
  else
    ListOutcome.allListing catalog.metadata.totalComponents catalog.categories

/-- Outcome of the `install` subcommand after a successful catalog load. -/
inductive InstallOutcome where
  | notFound (componentName : String)
  | printed (componentName : String) (component : ComponentData)
deriving DecidableEq, Repr

/-- `UIHelper.install`: exact-name lookup in `catalog.components`. -/
def install (catalog : Catalog) (componentName : String) : InstallOutcome :=
  match storeGet catalog.components componentName with
  | none => InstallOutcome.notFound componentName
  | some component => InstallOutcome.printed componentName component

/-- Outcome of the `info` subcommand after a successful catalog load. -/
inductive InfoOutcome where
  | notFound (componentName : String)
  | printed (component : ComponentData)
deriving DecidableEq, Repr

/-- `UIHelper.info`: exact-name lookup in `catalog.components`. -/
def info (catalog : Catalog) (componentName : String) : InfoOutcome :=
  match storeGet catalog.components componentName with
  | none => InfoOutcome.notFound componentName
  | some component => InfoOutcome.printed component

/-- What a full `UIHelper.run` invocation did: which message path it took. -/
inductive CliOutcome where
  | help
  | missingArg (command : String)
  | loadFailed
  | searchDone (outcome : SearchOutcome)
  | listDone (outcome : ListOutcome)
  | installDone (outcome : InstallOutcome)
  | infoDone (outcome : InfoOutcome)
deriving DecidableEq, Repr

/-- Observable result of one CLI process run: the message path, the process
exit status, and whether `loadCatalog` was attempted. -/
structure RunReport where
  outcome : CliOutcome
  exitCode : Nat
  loadAttempted : Bool
deriving DecidableEq, Repr

/-- `UIHelper.run`, with `args = process.argv.slice(2)` and `disk` the
readable-and-parseable catalog on disk (`none` when `loadCatalog` would fail
and `process.exit(1)`). -/
def run (args : List String) (disk : Option Catalog) : RunReport :=
  let command := args.get? 0
  if command = some "search" then
    if jsTruthy (args.get? 1) = false then
      ⟨CliOutcome.missingArg "search", 0, false⟩
    else
      match disk with
      | none => ⟨CliOutcome.loadFailed, 1, true⟩
      | some catalog =>
        ⟨CliOutcome.searchDone (search catalog ((args.get? 1).getD "")), 0, true⟩
  else if command = some "list" then
    match disk with
    | none => ⟨CliOutcome.loadFailed, 1, true⟩
    | some catalog => ⟨CliOutcome.listDone (list catalog (args.get? 1)), 0, true⟩
  else if command = some "install" then
    if jsTruthy (args.get? 1) = false then
      ⟨CliOutcome.missingArg "install", 0, false⟩
    else
      match disk with
      | none => ⟨CliOutcome.loadFailed, 1, true⟩
      | some catalog =>
        ⟨CliOutcome.installDone (install catalog ((args.get? 1).getD "")), 0, true⟩
  else if command = some "info" then
    if jsTruthy (args.get? 1) = false then
      ⟨CliOutcome.missingArg "info", 0, false⟩
    else
      match disk with
      | none => ⟨CliOutcome.loadFailed, 1, true⟩
      | some catalog =>
        ⟨CliOutcome.infoDone (info catalog ((args.get? 1).getD "")), 0, true⟩
  else
    ⟨CliOutcome.help, 0, false⟩

end UIHelper

/-- One sitemap entry as seen by the `serialize` callback of the sitemap
integration (priority is an exact rational; the JS values are all exactly
representable). -/
structure SitemapItem where
  url : String
  priority : ℚ
  changefreq : String
deriving DecidableEq, Repr

/-- The configured sitemap defaults: `changefreq: 'weekly', priority: 0.7`. -/
def sitemapDefaultPriority : ℚ := 7 / 10

/-- The configured default change frequency. -/
def sitemapDefaultChangefreq : String := "weekly"

/-- The `serialize(item)` callback of the sitemap integration, with its
exclusive if/else-if chain. -/
def sitemapSerialize (item : SitemapItem) : SitemapItem :=
  if strIncludes item.url "/projects/" then
    { item with priority := 9 / 10, changefreq := "weekly" }
  else if strIncludes item.url "/blog/" then
    { item with priority := 8 / 10, changefreq := "weekly" }
  else if item.url = "https://nextworkmarketing.com/" then
    { item with priority := 1, changefreq := "daily" }
  else if strIncludes item.url "/about" || strIncludes item.url "/careers" then
    { item with priority := 6 / 10, changefreq := "monthly" }
  else if strIncludes item.url "/privacy" || strIncludes item.url "/terms" then
    { item with priority := 3 / 10, changefreq := "yearly" }
  else item

example : UIHelper.list (runScraper "t") (some "") =
    UIHelper.list (runScraper "t") none := rfl

/-- C2: for every component name `X` (and any run timestamp), the record built
by `fetchComponentInfo` has `installation.cli` equal to the exact string
`"npx untitledui@latest add "` concatenated with `X`, and `installation.manual`
equal to `true`. -/
theorem installation_cli_format (now X : String) :
    (fetchComponentInfo now X).installation.cli = "npx untitledui@latest add " ++ X ∧
    (fetchComponentInfo now X).installation.manual = true := by
  simp only [fetchComponentInfo]
  split_ifs <;> exact ⟨rfl, rfl⟩

/-- C3: every component name listed in some category of the static taxonomy is
mapped to that category by `getCategoryForComponent`, and every name listed in
no category is mapped to `"misc"`. -/
theorem taxonomy_category_lookup :
    (COMPONENT_CATEGORIES.all (fun p =>
      p.2.all (fun n => getCategoryForComponent n == p.1)) = true)
  ∧ ∀ n : String,
      COMPONENT_CATEGORIES.all (fun p => !(p.2.contains n)) = true →
      getCategoryForComponent n = "misc" := by
  constructor
  · decide
  · intro n h
    unfold getCategoryForComponent
    have hnone : COMPONENT_CATEGORIES.find? (fun p => p.2.contains n) = none := by
      rw [List.find?_eq_none]
      intro p hp
      simp only [List.all_eq_true] at h
      have hcontains := h p hp
      simp only [Bool.not_eq_true'] at hcontains
      simpa using hcontains
    rw [hnone]

/-- Witness for C3 at the concrete name `"nonexistent"`. -/
theorem taxonomy_category_lookup_witness :
    COMPONENT_CATEGORIES.all (fun p => !(p.2.contains "nonexistent")) = true ∧
    getCategoryForComponent "nonexistent" = "misc" :=
  ⟨by decide, taxonomy_category_lookup.2 "nonexistent" (by decide)⟩

/-- C4: `fetchComponentInfo "button"` carries exactly the five hand-authored
button variants, `fetchComponentInfo "input"` has a `size` prop entry equal to
`"sm | md | lg"`, and every other name gets empty `variants` and `props`. -/
theorem hand_authored_overrides (now : String) :
    (fetchComponentInfo now "button").variants =
      ["primary", "secondary", "tertiary", "destructive", "link"]
  ∧ ((fetchComponentInfo now "input").props.lookup "size") = some "sm | md | lg"
  ∧ ∀ X : String, X ≠ "button" → X ≠ "input" →
      (fetchComponentInfo now X).variants = [] ∧ (fetchComponentInfo now X).props = [] := by
  refine ⟨rfl, rfl, ?_⟩
  intro X h1 h2
  simp only [fetchComponentInfo, if_neg h1, if_neg h2]
  exact ⟨by trivial, by trivial⟩

/-- Witness for C4 at the concrete non-overridden name `"card"`. -/
theorem hand_authored_overrides_witness :
    ("card" : String) ≠ "button" ∧ ("card" : String) ≠ "input" ∧
    (fetchComponentInfo "2024-01-01" "card").variants = [] ∧
    (fetchComponentInfo "2024-01-01" "card").props = [] := by
  refine ⟨by decide, by decide, ?_⟩
  exact (hand_authored_overrides "2024-01-01").2.2 "card" (by decide) (by decide)

/-- C10: `UIHelper.list` with an empty-string category behaves exactly like an
absent category, printing the full all-categories listing and never the
category-not-found message, because the parameter is tested for JS truthiness. -/
theorem list_empty_string_category (catalog : Catalog) :
    UIHelper.list catalog (some "") = UIHelper.list catalog none ∧
    UIHelper.list catalog (some "") =
      UIHelper.ListOutcome.allListing catalog.metadata.totalComponents catalog.categories := by
  exact ⟨rfl, rfl⟩

/-- C9: in the sitemap `serialize` callback, a URL containing both
`"/projects/"` and `"/blog/"` takes the `"/projects/"` rule (priority `0.9`,
frequency `"weekly"`) because the branches are exclusive and checked in that
order; the bare site root gets priority exactly `1.0` and frequency `"daily"`;
and a URL matching none of the special rules keeps the configured defaults
`0.7` and `"weekly"`. -/
theorem sitemap_rule_precedence :
    (∀ item : SitemapItem,
      strIncludes item.url "/projects/" = true →
      strIncludes item.url "/blog/" = true →
      sitemapSerialize item = { item with priority := 9 / 10, changefreq := "weekly" })
  ∧ sitemapSerialize
      ⟨"https://nextworkmarketing.com/", sitemapDefaultPriority, sitemapDefaultChangefreq⟩ =
      ⟨"https://nextworkmarketing.com/", 1, "daily"⟩
  ∧ (∀ url : String,
      strIncludes url "/projects/" = false →
      strIncludes url "/blog/" = false →
      url ≠ "https://nextworkmarketing.com/" →
      strIncludes url "/about" = false →
      strIncludes url "/careers" = false →
      strIncludes url "/privacy" = false →
      strIncludes url "/terms" = false →
      sitemapSerialize ⟨url, sitemapDefaultPriority, sitemapDefaultChangefreq⟩ =
        ⟨url, sitemapDefaultPriority, sitemapDefaultChangefreq⟩) := by
  refine ⟨?_, by decide, ?_⟩
  · intro item hp _hb
    simp only [sitemapSerialize, hp, if_true]
  · intro url h1 h2 h3 h4 h5 h6 h7
    simp only [sitemapSerialize, h1, h2, h3, h4, h5, h6, h7]
    simp

/-- Witness for C9 at a URL containing both special substrings and at a URL
containing none of them. -/
theorem sitemap_rule_precedence_witness :
    strIncludes "https://nextworkmarketing.com/projects/a/blog/b" "/projects/" = true ∧
    strIncludes "https://nextworkmarketing.com/projects/a/blog/b" "/blog/" = true ∧
    sitemapSerialize ⟨"https://nextworkmarketing.com/projects/a/blog/b",
        sitemapDefaultPriority, sitemapDefaultChangefreq⟩ =
      ⟨"https://nextworkmarketing.com/projects/a/blog/b", 9 / 10, "weekly"⟩ ∧
    sitemapSerialize ⟨"https://nextworkmarketing.com/pricing",
        sitemapDefaultPriority, sitemapDefaultChangefreq⟩ =
      ⟨"https://nextworkmarketing.com/pricing", sitemapDefaultPriority,
        sitemapDefaultChangefreq⟩ := by
  refine ⟨by decide, by decide, ?_, ?_⟩
  · exact sitemap_rule_precedence.1
      ⟨"https://nextworkmarketing.com/projects/a/blog/b",
        sitemapDefaultPriority, sitemapDefaultChangefreq⟩ (by decide) (by decide)
  · exact sitemap_rule_precedence.2.2 "https://nextworkmarketing.com/pricing"
      (by decide) (by decide) (by decide) (by decide) (by decide) (by decide) (by decide)

/-- C5: `UIHelper.search` selects exactly the components for which the
lowercased query is a substring of the lowercased name, description, category,
or some variant; with zero matches it reports the no-components-found outcome
(and returns, rather than failing). -/
theorem search_matching_semantics (catalog : Catalog) (query : String) :
    (∀ component : ComponentData,
      component ∈ UIHelper.searchResults catalog query ↔
        component ∈ catalog.components.map (fun p => p.2) ∧
        UIHelper.matchesQuery (jsToLower query) component = true)
  ∧ (UIHelper.searchResults catalog query = [] →
      UIHelper.search catalog query = UIHelper.SearchOutcome.noneFound query) := by
  constructor
  · intro component
    simp [UIHelper.searchResults, List.mem_filter]
  · intro h
    simp only [UIHelper.search, h, List.length_nil, if_true]

/-- Witness for C5: on the actually generated catalog, the query
`"zzz-no-match"` matches nothing and yields the no-components-found outcome. -/
theorem search_matching_semantics_witness :
    UIHelper.searchResults (runScraper "2024-01-01") "zzz-no-match" = [] ∧
    UIHelper.search (runScraper "2024-01-01") "zzz-no-match" =
      UIHelper.SearchOutcome.noneFound "zzz-no-match" :=
  ⟨by decide, (search_matching_semantics (runScraper "2024-01-01") "zzz-no-match").2 (by decide)⟩

/-- Membership in the JS-`Set`-style fold: an element is collected iff it was
already in the accumulator or occurs in the remaining input. -/
theorem mem_foldl_insertUnique (l : List String) (acc : List String) (x : String) :
    x ∈ l.foldl insertUnique acc ↔ x ∈ acc ∨ x ∈ l := by
  induction l generalizing acc with
  | nil => simp
  | cons a as ih =>
    rw [List.foldl_cons, ih]
    by_cases h : a ∈ acc
    · simp only [insertUnique, if_pos h, List.mem_cons]
      constructor
      · rintro (hx | hx)
        · exact Or.inl hx
        · exact Or.inr (Or.inr hx)
      · rintro (hx | rfl | hx)
        · exact Or.inl hx
        · exact Or.inl h
        · exact Or.inr hx
    · simp only [insertUnique, if_neg h, List.mem_append, List.mem_singleton, List.mem_cons]
      tauto

/-- `dedupFirst` preserves membership. -/
theorem mem_dedupFirst (l : List String) (x : String) : x ∈ dedupFirst l ↔ x ∈ l := by
  unfold dedupFirst
  rw [mem_foldl_insertUnique]
  simp

/-- C8: the emitted type-definitions text is independent of what the run
actually fetched and stored, and its two literal unions enumerate exactly the
declared category names and exactly the de-duplicated union of all taxonomy
component names. -/
theorem type_definitions_closed_unions :
    (∀ c1 c2 : Catalog, generateTypeDefinitions c1 = generateTypeDefinitions c2)
  ∧ componentCategoryUnion =
      ["buttons", "inputs", "avatars", "navigation", "feedback",
       "overlays", "layout", "data-display", "forms"]
  ∧ componentNameUnion.Nodup
  ∧ (∀ n : String, n ∈ componentNameUnion ↔ ∃ p ∈ COMPONENT_CATEGORIES, n ∈ p.2) := by
  refine ⟨fun c1 c2 => rfl, by decide, by decide, ?_⟩
  intro n
  unfold componentNameUnion
  rw [mem_dedupFirst]
  simp only [List.mem_flatten, List.mem_map]
  constructor
  · rintro ⟨l, ⟨p, hp, rfl⟩, hn⟩
    exact ⟨p, hp, hn⟩
  · rintro ⟨p, hp, hn⟩
    exact ⟨p.2, ⟨p, hp, rfl⟩, hn⟩

/-- Drop the per-record generation timestamp. -/
def eraseDataTime (c : ComponentData) : ComponentData :=
  { c with lastUpdated := "" }

/-- Drop all per-record timestamps in a component store. -/
def eraseStoreTimes (store : List (String × ComponentData)) : List (String × ComponentData) :=
  store.map (fun p => (p.1, eraseDataTime p.2))

/-- Drop every timestamp field (`scrapedAt` and all `lastUpdated`) of a catalog. -/
def eraseCatalogTimes (c : Catalog) : Catalog :=
  { metadata := { c.metadata with scrapedAt := "" }
    categories := c.categories.map (fun p => (p.1, p.2.map eraseDataTime))
    components := eraseStoreTimes c.components }

/-- Erasing the timestamp of a fetched record yields the record fetched at the
empty timestamp: `now` only ever flows into `lastUpdated`. -/
theorem eraseDataTime_fetch (t n : String) :
    eraseDataTime (fetchComponentInfo t n) = fetchComponentInfo "" n := by
  by_cases h1 : n = "button"
  · subst h1; rfl
  · by_cases h2 : n = "input"
    · subst h2; rfl
    · simp only [fetchComponentInfo, if_neg h1, if_neg h2]
      rfl

/-- Timestamp erasure keeps the `name` field. -/
theorem eraseDataTime_name (c : ComponentData) : (eraseDataTime c).name = c.name := rfl

/-- Key lookup in a store built by pairing each name with a generated record
depends only on the name list. -/
theorem storeHas_mapPairs (l : List String) (f : String → ComponentData) (m : String) :
    storeHas (l.map (fun n => (n, f n))) m = (l.find? (fun n => n == m)).isSome := by
  induction l with
  | nil => rfl
  | cons a as ih =>
    unfold storeHas at ih ⊢
    cases hb : (a == m)
    · simp only [List.map_cons, List.find?_cons, hb]
      exact ih
    · simp only [List.map_cons, List.find?_cons, hb]
      rfl

/-- Record lookup in a store built by pairing each name with a generated
record is the generated record of the first matching name. -/
theorem storeGet_mapPairs (l : List String) (f : String → ComponentData) (m : String) :
    storeGet (l.map (fun n => (n, f n))) m = (l.find? (fun n => n == m)).map f := by
  induction l with
  | nil => rfl
  | cons a as ih =>
    unfold storeGet at ih ⊢
    cases hb : (a == m)
    · simp only [List.map_cons, List.find?_cons, hb]
      exact ih
    · simp only [List.map_cons, List.find?_cons, hb]
      rfl

/-- Modulo timestamps, a full scraper run does not depend on the clock. -/
theorem eraseCatalog_runScraper (t : String) :
    eraseCatalogTimes (runScraper t) = eraseCatalogTimes (runScraper "") := by
  simp only [runScraper, generateCatalog, scrapeAllComponents, eraseCatalogTimes,
    eraseStoreTimes, List.map_map, List.length_map, storeHas_mapPairs, storeGet_mapPairs,
    List.map_filterMap, Option.map_map, Function.comp_def, eraseDataTime_fetch]

/-- C7: two scraper runs (with different clock readings and no other state)
produce catalogs with the same components key set and identical per-record
field values, up to the `lastUpdated`/`scrapedAt` timestamp fields. -/
theorem scraper_idempotent_modulo_timestamps (t1 t2 : String) :
    (runScraper t1).components.map (fun p => p.1) =
      (runScraper t2).components.map (fun p => p.1)
  ∧ eraseCatalogTimes (runScraper t1) = eraseCatalogTimes (runScraper t2) := by
  constructor
  · simp [runScraper, generateCatalog, scrapeAllComponents, List.map_map, Function.comp_def]
  · rw [eraseCatalog_runScraper t1, eraseCatalog_runScraper t2]

/-- The name-consistency half of the catalog invariant, as an executable
check: every record embedded in any per-category list has its name present as
a key of the components store. -/
def catalogNamesCheck (c : Catalog) : Bool :=
  c.categories.all (fun p => p.2.all (fun r => storeHas c.components r.name))

/-- Key lookup is insensitive to timestamp erasure of the stored records. -/
theorem storeHas_eraseStore (s : List (String × ComponentData)) (m : String) :
    storeHas (eraseStoreTimes s) m = storeHas s m := by
  induction s with
  | nil => rfl
  | cons a as ih =>
    unfold storeHas eraseStoreTimes at ih ⊢
    cases hb : (a.1 == m)
    · simp only [List.map_cons, List.find?_cons, hb]
      exact ih
    · simp only [List.map_cons, List.find?_cons, hb]
      rfl

/-- The name-consistency check is insensitive to timestamp erasure. -/
theorem catalogNamesCheck_erase (c : Catalog) :
    catalogNamesCheck (eraseCatalogTimes c) = catalogNamesCheck c := by
  unfold catalogNamesCheck eraseCatalogTimes
  simp only [List.all_map, Function.comp_def, eraseDataTime_name, storeHas_eraseStore]

/-- C1: after a scraper run at any clock reading, `metadata.totalComponents`
equals the number of entries in the components store, and every component
record embedded in a per-category list has its name present as a key of the
components store (each category list is filtered to stored names first). -/
theorem catalog_invariant_after_run (now : String) :
    (runScraper now).metadata.totalComponents = (runScraper now).components.length
  ∧ catalogNamesCheck (runScraper now) = true := by
  refine ⟨rfl, ?_⟩
  calc catalogNamesCheck (runScraper now)
      = catalogNamesCheck (eraseCatalogTimes (runScraper now)) :=
        (catalogNamesCheck_erase _).symm
    _ = catalogNamesCheck (eraseCatalogTimes (runScraper "")) := by
        rw [eraseCatalog_runScraper]
    _ = catalogNamesCheck (runScraper "") := catalogNamesCheck_erase _
    _ = true := by decide

/-- C6: the CLI helper process exits non-zero only on catalog-load failure;
not-found / no-result / missing-argument outcomes all exit with status zero;
and `search`, `install` and `info` invoked without a (truthy) second argument
report a usage message and return without attempting a catalog load. -/
theorem cli_exit_status_policy (args : List String) (disk : Option Catalog) :
    ((UIHelper.run args disk).exitCode ≠ 0 ↔
      ((UIHelper.run args disk).outcome = UIHelper.CliOutcome.loadFailed ∧ disk = none))
  ∧ (∀ cmd : String, args.get? 0 = some cmd →
      (cmd = "search" ∨ cmd = "install" ∨ cmd = "info") →
      jsTruthy (args.get? 1) = false →
      UIHelper.run args disk = ⟨UIHelper.CliOutcome.missingArg cmd, 0, false⟩) := by
  constructor
  · rcases disk with _ | catalog <;>
      · simp only [UIHelper.run]
        split_ifs <;> simp
  · intro cmd h0 hmem harg
    rcases hmem with rfl | rfl | rfl <;>
      · simp only [UIHelper.run, h0]
        simp_all

/-- Witness for C6: `info` with no second argument reports the missing-argument
usage message, exits with status zero, and never attempts a catalog load, even
when no catalog exists on disk. -/
theorem cli_exit_status_policy_witness :
    UIHelper.run ["info"] none =
      ⟨UIHelper.CliOutcome.missingArg "info", 0, false⟩ ∧
    (UIHelper.run ["info"] none).exitCode = 0 := by
  have h := (cli_exit_status_policy ["info"] none).2 "info" rfl
    (Or.inr (Or.inr rfl)) (by decide)
  exact ⟨h, by rw [h]⟩
